import Mathlib

/-!
Verification of the chat-server conditional polling relay.

The development shallowly embeds the relevant parts of the repository:

* `Sec` — `src/middleware/security.middleware.ts` (`SecurityMiddleware`):
  the fixed-window rate limiter, input validation and sanitization.
* `Api` — `src/services/api.service.ts` (`ApiService`): retrying fetch,
  response processing, error classification.
* `V1` — `src/server.ts`: the first-revision engine with the single global
  interval, shared cursor `lastIndex` and shared `currentKey`.
* `PS` — `src/services/polling.service.ts` (`PollingService`) together with
  the `startPolling` path of `ChatServer` (`src/index.ts`): the per-client
  polling state machine of the second revision.

JavaScript `Map`s are embedded as association lists preserving insertion
order (`Map.set` updates in place, `Map.delete` removes); `Date.now()` and
`Date` timestamps are `Nat` values threaded as explicit `now` arguments.
-/

/-- Lookup in an association list, mirroring `Map.get`. -/
def alFind? {β : Type} : List (String × β) → String → Option β
  | [], _ => none
  | (k', v) :: rest, k => if k' = k then some v else alFind? rest k

/-- Update/insert in an association list, mirroring `Map.set`
(updates in place, otherwise appends, as JavaScript `Map` does). -/
def alInsert {β : Type} : List (String × β) → String → β → List (String × β)
  | [], k, v => [(k, v)]
  | (k', v') :: rest, k, v =>
      if k' = k then (k, v) :: rest else (k', v') :: alInsert rest k v

/-- Removal from an association list, mirroring `Map.delete`. -/
def alErase {β : Type} (m : List (String × β)) (k : String) : List (String × β) :=
  m.filter (fun e => e.1 != k)

/-- Adding an element to a set represented as a duplicate-free list. -/
def listInsert (xs : List String) (x : String) : List String :=
  if xs.contains x then xs else xs ++ [x]

namespace Sec

/-- One entry of `SecurityMiddleware.requestCounts`:
`\x7b count: number; resetTime: number \x7d`. -/
structure RateEntry where
  count : Nat
  resetTime : Nat
deriving DecidableEq, Repr

/-- The rate-limiting configuration read from `getEnvironmentConfig()`:
`RATE_LIMIT_WINDOW` and `RATE_LIMIT_MAX_REQUESTS`. -/
structure RateConfig where
  windowMs : Nat
  maxRequests : Nat
deriving DecidableEq, Repr

/-- Defaults from `src/config/environment.ts`:
`RATE_LIMIT_WINDOW = 900000`, `RATE_LIMIT_MAX_REQUESTS = 100`. -/
def defaultRateConfig : RateConfig :=
  { windowMs := 900000, maxRequests := 100 }

/-- Outcome of one `rateLimit` middleware call: `next()` was invoked, or the
request was answered with HTTP 429 carrying `retryAfter` seconds. -/
inductive RateDecision where
  | allowed
  | rejected (retryAfterSeconds : Nat)
deriving DecidableEq, Repr

/-- JavaScript `Math.ceil(x / 1000)` on a non-negative integer `x`. -/
def ceilDiv1000 (x : Nat) : Nat :=
  (x + 999) / 1000

/-- Embedding of `SecurityMiddleware.cleanupExpiredCounters`: delete every entry with
`now > data.resetTime`. -/
def cleanupExpiredCounters (now : Nat) (m : List (String × RateEntry)) :
    List (String × RateEntry) :=
  m.filter (fun e => !(decide (now > e.2.resetTime)))

/-- Embedding of `SecurityMiddleware.rateLimit`, as a function of the client IP, the
current time and the `requestCounts` map; returns the decision and the
updated map. -/
def rateLimit (cfg : RateConfig) (clientIp : String) (now : Nat)
    (requestCounts : List (String × RateEntry)) :
    RateDecision × List (String × RateEntry) :=
  let m := cleanupExpiredCounters now requestCounts
  match alFind? m clientIp with
  | none =>
      (.allowed, alInsert m clientIp { count := 1, resetTime := now + cfg.windowMs })
  | some clientData =>
      if now > clientData.resetTime then
        (.allowed, alInsert m clientIp { count := 1, resetTime := now + cfg.windowMs })
      else if clientData.count ≥ cfg.maxRequests then
        (.rejected (ceilDiv1000 (clientData.resetTime - now)), m)
      else
        (.allowed,
         alInsert m clientIp { clientData with count := clientData.count + 1 })

/-- A sequence of `rateLimit` calls for one origin at the given times. -/
def rateLimitRun (cfg : RateConfig) (clientIp : String) :
    List Nat → List (String × RateEntry) →
    List RateDecision × List (String × RateEntry)
  | [], m => ([], m)
  | t :: ts, m =>
      let step := rateLimit cfg clientIp t m
      let rest := rateLimitRun cfg clientIp ts step.2
      (step.1 :: rest.1, rest.2)

/-- The character class of the key regular expression `[a-zA-Z0-9_-]`. -/
def isValidKeyChar (c : Char) : Bool :=
  c.isAlpha || c.isDigit || c = '_' || c = '-'

/-- The test `/^[a-zA-Z0-9_-]+$/.test(key)`: at least one character, and
every character drawn from the class. -/
def regexKeyTest (key : String) : Bool :=
  !key.isEmpty && key.data.all isValidKeyChar

/-- Result of `SecurityMiddleware.validateStartPollingData` on the `key`
field, identifying which of the three rejection branches fired. -/
inductive KeyValidation where
  | ok
  | errRequired
  | errLength
  | errCharset
deriving DecidableEq, Repr

/-- Embedding of `SecurityMiddleware.validateStartPollingData` restricted to a string
`data.key` (for a string, the guard `!data.key` holds exactly when the
string is empty). -/
def validateStartPollingKey (key : String) : KeyValidation :=
  if key.isEmpty then .errRequired
  else if key.length = 0 || key.length > 100 then .errLength
  else if !regexKeyTest key then .errCharset
  else .ok

/-- Embedding of `SecurityMiddleware.validateWebSocketInput` on a payload with an
optional `event` field and a string `key` field: the per-key validation
runs only when `data.event === 'startPolling'`; any other object is
accepted unchecked. -/
def validateWebSocketInput (eventField : Option String) (key : String) : Bool :=
  match eventField with
  | some e => if e = "startPolling" then validateStartPollingKey key == .ok else true
  | none => true

/-- JavaScript `String.prototype.trim` on the character list: drop
leading and trailing whitespace. -/
def trimChars (cs : List Char) : List Char :=
  ((cs.dropWhile Char.isWhitespace).reverse.dropWhile Char.isWhitespace).reverse

/-- Embedding of `SecurityMiddleware.sanitizeString`: strip `<` and `>`, trim
whitespace, truncate to 10000 characters. -/
def sanitizeString (s : String) : String :=
  String.mk ((trimChars (s.data.filter (fun c => !(c = '<' || c = '>')))).take 10000)

/-- The specification's notion of a valid key: non-empty, at most 100
characters, all drawn from letters, digits, underscore, hyphen. -/
def SpecValidKey (key : String) : Prop :=
  key ≠ "" ∧ key.length ≤ 100 ∧ ∀ c ∈ key.data,
    c.isAlpha = true ∨ c.isDigit = true ∨ c = '_' ∨ c = '-'

end Sec

/-- The key validator duplicated verbatim in `ApiService.isValidKey` and
`PollingService.isValidKey`:
`key.length > 0 && key.length <= 100 && /^[a-zA-Z0-9_-]+$/.test(key)`. -/
def isValidKey (key : String) : Bool :=
  decide (key.length > 0) && decide (key.length ≤ 100) && Sec.regexKeyTest key

namespace Api

/-- A runtime JSON value as far as `ApiService.processApiResponse`
inspects it: `Array.isArray` distinguishes arrays, `typeof m === 'string'`
distinguishes strings; every other shape (number, object, null, ...) is
collapsed into `other`. -/
inductive JVal where
  | str (s : String)
  | arr (elems : List JVal)
  | other

/-- The parsed body of one HTTP response (`RawApiResponse`): an object,
embedded as its ordered field list (`Object.keys` order). -/
abbrev RawResponse := List (String × JVal)

/-- The shape of an axios error as far as `ApiService.getErrorMessage`
inspects it: `error.response.status`/`statusText`, `error.code`,
`error.message`. -/
structure ApiError where
  responseStatus : Option Nat
  responseStatusText : String
  code : Option String
  message : String
deriving DecidableEq, Repr

/-- The non-HTTP tail of `ApiService.getErrorMessage`: the `error.code`
checks and the `error?.message || 'Erro desconhecido'` fallback (an empty
message is falsy in JavaScript and falls back). -/
def getErrorMessageTail (e : ApiError) : String :=
  if e.code = some "ECONNABORTED" then "Timeout na requisição"
  else if e.code = some "ENOTFOUND" then "Servidor não encontrado"
  else if e.message = "" then "Erro desconhecido" else e.message

/-- Embedding of `ApiService.getErrorMessage`. The guard `error?.response?.status` is a
truthiness test, so a present status of `0` falls through to the later
branches. -/
def getErrorMessage (e : ApiError) : String :=
  match e.responseStatus with
  | some status =>
      if status = 0 then getErrorMessageTail e
      else "HTTP " ++ toString status ++ ": " ++ e.responseStatusText
  | none => getErrorMessageTail e

/-- Embedding of `ApiService.isValidMessage` on a runtime value:
`typeof message === 'string' && message.length > 0 && message.length <= 10000`. -/
def isValidMessage : JVal → Bool
  | .str s => decide (s.length > 0) && decide (s.length ≤ 10000)
  | _ => false

/-- Embedding of `ApiService.processApiResponse`: take the first property of the
response object (an empty-string property name is falsy, treated as "no
properties"), return `[]` unless its value is an array, otherwise filter
by `isValidMessage` and cap at `MAX_MESSAGES_PER_BATCH`. -/
def processApiResponse (maxBatch : Nat) : RawResponse → List JVal
  | [] => []
  | (propertyName, v) :: _ =>
      if propertyName = "" then []
      else
        match v with
        | .arr rawMessages => (rawMessages.filter isValidMessage).take maxBatch
        | _ => []

/-- The loop body of `ApiService.makeRequestWithRetry`, with the running
`attempt` number and the number of attempts still allowed after it
(`remaining = maxAttempts - attempt`). `outcome i` is the result of the
`i`-th HTTP GET. Returns the final result, the list of backoff delays
slept, and the number of attempts performed. -/
def retryGo (outcome : Nat → Except ApiError RawResponse) (baseDelayMs : Nat) :
    Nat → Nat → Except ApiError RawResponse × List Nat × Nat
  | attempt, remaining =>
      match outcome attempt with
      | .ok r => (.ok r, [], 1)
      | .error e =>
          match remaining with
          | 0 => (.error e, [], 1)
          | r + 1 =>
              let delay := 2 ^ attempt * baseDelayMs
              let rest := retryGo outcome baseDelayMs (attempt + 1) r
              (rest.1, delay :: rest.2.1, rest.2.2 + 1)

/-- Embedding of `ApiService.makeRequestWithRetry`: attempts run from 1 up to
`maxAttempts` (`API_RETRY_ATTEMPTS`, default 3); after every failure
before the final attempt it sleeps `2 ^ attempt * baseDelayMs` (the
source hardcodes `baseDelayMs = 1000`); exhausting the attempts rethrows
the last error. Faithful for `maxAttempts ≥ 1`. -/
def makeRequestWithRetry (outcome : Nat → Except ApiError RawResponse)
    (baseDelayMs maxAttempts : Nat) :
    Except ApiError RawResponse × List Nat × Nat :=
  retryGo outcome baseDelayMs 1 (maxAttempts - 1)

/-- The `PollingResult` record returned by `ApiService.fetchMessages`
(the `timestamp: Date` field is omitted). -/
structure PollResultM where
  success : Bool
  messagesProcessed : Nat
  error : Option String
deriving DecidableEq, Repr

/-- Embedding of `ApiService.fetchMessages`: reject invalid keys before any request
(the thrown error is caught by the surrounding try and surfaces as a
failed result), otherwise retry the GET and on success count the
processed messages; on exhausted retries classify the last error with
`getErrorMessage`. Also returns the backoff delays and attempt count. -/
def fetchMessages (maxAttempts baseDelayMs maxBatch : Nat) (key : String)
    (outcome : Nat → Except ApiError RawResponse) :
    PollResultM × List Nat × Nat :=
  if !isValidKey key then
    ({ success := false, messagesProcessed := 0,
       error := some "Chave inválida fornecida" }, [], 0)
  else
    match makeRequestWithRetry outcome baseDelayMs maxAttempts with
    | (.ok data, delays, used) =>
        ({ success := true,
           messagesProcessed := (processApiResponse maxBatch data).length,
           error := none }, delays, used)
    | (.error e, delays, used) =>
        ({ success := false, messagesProcessed := 0,
           error := some (getErrorMessage e) }, delays, used)

end Api

namespace V1

/-- One `io.emit` call of `src/server.ts`: a payload broadcast to every
currently connected socket. `JSON.parse` of a message is treated as
successful; payloads are relayed verbatim. -/
structure Broadcast where
  targets : List String
  payload : String
deriving DecidableEq, Repr

/-- The body of one fetch response in `src/server.ts`
(`RawResponse = [prop: string]: string[]`), as its ordered field list;
`none` is a request that threw. -/
abbrev FetchResp := Option (List (String × List String))

/-- The mutable module state of `src/server.ts`. `globalInterval` records
whether the shared interval is set. `connected` is the set of live socket
ids (`io.engine.clientsCount = connected.length`, `io.emit` targets).
`subscriptions` is bookkeeping the server itself does not hold: it maps a
socket id to the key of its last `startPolling` request, so claims about
"connections subscribed to a key" can be stated; no transition of the
server reads it. -/
structure State where
  globalInterval : Bool
  lastIndex : Nat
  currentKey : String
  connected : List String
  subscriptions : List (String × String)
deriving DecidableEq, Repr

/-- The state at module load. -/
def init : State :=
  { globalInterval := false, lastIndex := 0, currentKey := "",
    connected := [], subscriptions := [] }

/-- The effect of `while (lastIndex < rawMsgs.length)` in `fetchAndEmit`:
emit the entries of the suffix `rawMsgs[i..]` one by one, incrementing the
cursor after each. Structured as a traversal of the suffix so that it
computes by reduction. -/
def emitList : List String → Nat → List String × Nat
  | [], i => ([], i)
  | m :: rest, i =>
      let r := emitList rest (i + 1)
      (m :: r.1, r.2)

/-- The delivery loop of `fetchAndEmit` starting at cursor `i`:
delivered payloads and the final cursor. -/
def emitLoop (rawMsgs : List String) (i : Nat) : List String × Nat :=
  emitList (rawMsgs.drop i) i

/-- Embedding of `const propName = Object.keys(data)[0]; const rawMsgs = data[propName] || []`. -/
def firstFieldMsgs : List (String × List String) → List String
  | [] => []
  | (_, v) :: _ => v

/-- Observable output of one event: whether an HTTP GET was attempted,
and the `io.emit` broadcasts issued, in order. -/
structure TickOut where
  fetched : Bool
  broadcasts : List Broadcast
deriving DecidableEq, Repr

/-- The empty output. -/
def noOut : TickOut := { fetched := false, broadcasts := [] }

/-- Embedding of `fetchAndEmit` of `src/server.ts`: a no-op while `currentKey` is
empty; on a failed request the catch only logs; otherwise take the first
property of the response body and deliver the suffix past `lastIndex` to
every connected socket, advancing `lastIndex`. -/
def fetchAndEmit (st : State) (resp : FetchResp) : State × TickOut :=
  if st.currentKey = "" then (st, noOut)
  else
    match resp with
    | none => (st, { fetched := true, broadcasts := [] })
    | some fields =>
        let rawMsgs := firstFieldMsgs fields
        let out := emitLoop rawMsgs st.lastIndex
        ({ st with lastIndex := out.2 },
         { fetched := true,
           broadcasts := out.1.map (fun m => { targets := st.connected, payload := m }) })

/-- The externally visible events of `src/server.ts`. A `startPolling`
event carries the body the immediate `fetchAndEmit` would receive (unused
when an interval is already running); a `tick` event is one firing of the
shared interval, carrying its response body. -/
inductive Event where
  | connect (id : String)
  | startPolling (id key : String) (resp : FetchResp)
  | disconnect (id : String)
  | tick (resp : FetchResp)
deriving Repr

/-- One event step of `src/server.ts`. `startPolling` always overwrites
`currentKey` and starts the interval (with one immediate fetch) only when
none is running; it can only come from a connected socket. `disconnect`
removes the socket and, when no client remains connected, clears the
interval and resets `lastIndex` and `currentKey`. A `tick` fires only
while the interval is set. -/
def step (st : State) (e : Event) : State × TickOut :=
  match e with
  | .connect id =>
      ({ st with connected := listInsert st.connected id }, noOut)
  | .startPolling id key resp =>
      if st.connected.contains id then
        let st1 := { st with currentKey := key,
                             subscriptions := alInsert st.subscriptions id key }
        if st1.globalInterval then (st1, noOut)
        else
          let r := fetchAndEmit st1 resp
          ({ r.1 with globalInterval := true }, r.2)
      else (st, noOut)
  | .disconnect id =>
      let st1 := { st with connected := st.connected.filter (fun x => x != id),
                           subscriptions := alErase st.subscriptions id }
      if st1.connected.isEmpty && st1.globalInterval then
        ({ st1 with globalInterval := false, lastIndex := 0, currentKey := "" }, noOut)
      else (st1, noOut)
  | .tick resp =>
      if st.globalInterval then fetchAndEmit st resp else (st, noOut)

/-- A run of events from a given state, collecting each step's output. -/
def run (st : State) : List Event → State × List TickOut
  | [] => (st, [])
  | e :: es =>
      let r := step st e
      let rest := run r.1 es
      (rest.1, r.2 :: rest.2)

/-- The connections currently subscribed to `key`, per the bookkeeping
`subscriptions` map. -/
def subscribersOf (st : State) (key : String) : List String :=
  (st.subscriptions.filter (fun p => p.2 == key)).map (fun p => p.1)

/-- A run of interval ticks whose fetches all succeed, with response
bodies exposing the given raw sequences under a single field. -/
def runTicks (st : State) : List (List String) → State × List TickOut
  | [] => (st, [])
  | raw :: rest =>
      let r := fetchAndEmit st (some [("messages", raw)])
      let restRun := runTicks r.1 rest
      (restRun.1, r.2 :: restRun.2)

/-- The payloads delivered by a list of tick outputs, in order. -/
def deliveredStream (outs : List TickOut) : List String :=
  (outs.map (fun o => o.broadcasts.map (fun b => b.payload))).flatten

/-- The append-only assumption between two successive raw sequences:
the earlier one is an initial segment of the later one. -/
def GrowsTo (a b : List String) : Prop :=
  b.take a.length = a

instance (a b : List String) : Decidable (GrowsTo a b) :=
  inferInstanceAs (Decidable (_ = _))

/-- The reachability invariant of `src/server.ts`: the interval only runs
while some client is connected, and whenever the interval is not running
the cursor and key have their reset values. -/
def Inv (st : State) : Prop :=
  (st.globalInterval = true → st.connected ≠ []) ∧
  (st.globalInterval = false → st.lastIndex = 0 ∧ st.currentKey = "")

end V1

namespace PS

/-- Embedding of `ClientInfo` as kept by `PollingService.clients` (the
`status: ConnectionStatus` field, set once to `POLLING`, is omitted). -/
structure ClientInfoM where
  pollingKey : String
  messageCount : Nat
  connectedAt : Nat
  lastActivity : Nat
deriving DecidableEq, Repr

/-- Embedding of `PollingConfig` as kept by `PollingService.pollingConfigs` (the
constant `interval: POLLING_INTERVAL` field is omitted). -/
structure PollingConfigM where
  key : String
  lastIndex : Nat
  isActive : Bool
  lastPollTime : Nat
  errorCount : Nat
deriving DecidableEq, Repr

/-- The three maps owned by `PollingService`; `intervals` holds the ids
of clients with a scheduled periodic timer. -/
structure State where
  clients : List (String × ClientInfoM)
  pollingConfigs : List (String × PollingConfigM)
  intervals : List String
deriving DecidableEq, Repr

/-- The state of a freshly constructed `PollingService`. -/
def init : State := { clients := [], pollingConfigs := [], intervals := [] }

/-- Embedding of `PollingService.cleanupClient`: delete the client from all three maps
(the `intervals` entry is deleted without `clearInterval`). -/
def cleanupClient (st : State) (clientId : String) : State :=
  { clients := alErase st.clients clientId,
    pollingConfigs := alErase st.pollingConfigs clientId,
    intervals := st.intervals.filter (fun x => x != clientId) }

/-- Embedding of `PollingService.stopPolling`: `clearInterval` plus deletion of the
`intervals` entry, then `cleanupClient`. -/
def stopPolling (st : State) (clientId : String) : State :=
  cleanupClient
    { st with intervals := st.intervals.filter (fun x => x != clientId) } clientId

/-- Embedding of `PollingService.isClientPolling`: `this.intervals.has(clientId)`. -/
def isClientPolling (st : State) (clientId : String) : Bool :=
  st.intervals.contains clientId

/-- Embedding of `PollingService.setupClient`: fresh `ClientInfo` and a fresh
`PollingConfig` with `lastIndex = 0`, `isActive = true`, `errorCount = 0`. -/
def setupClient (st : State) (clientId key : String) (now : Nat) : State :=
  { st with
    clients := alInsert st.clients clientId
      { pollingKey := key, messageCount := 0, connectedAt := now, lastActivity := now },
    pollingConfigs := alInsert st.pollingConfigs clientId
      { key := key, lastIndex := 0, isActive := true, lastPollTime := now, errorCount := 0 } }

/-- Embedding of `PollingService.setupPeriodicPolling`: register the periodic timer. -/
def setupPeriodicPolling (st : State) (clientId : String) : State :=
  { st with intervals := listInsert st.intervals clientId }

/-- Embedding of `PollingService.updateClientActivity`. -/
def updateClientActivity (st : State) (clientId : String) (now : Nat) : State :=
  match alFind? st.clients clientId with
  | none => st
  | some c =>
      { st with clients := alInsert st.clients clientId { c with lastActivity := now } }

/-- Embedding of `PollingService.incrementMessageCount`. -/
def incrementMessageCount (st : State) (clientId : String) (count : Nat) : State :=
  match alFind? st.clients clientId with
  | none => st
  | some c =>
      let c2 := { c with messageCount := c.messageCount + count }
      { st with clients := alInsert st.clients clientId c2 }

/-- Embedding of `PollingService.resetErrorCount`. -/
def resetErrorCount (st : State) (clientId : String) : State :=
  match alFind? st.pollingConfigs clientId with
  | none => st
  | some cfg =>
      let cfg2 := { cfg with errorCount := 0 }
      { st with pollingConfigs := alInsert st.pollingConfigs clientId cfg2 }

/-- Embedding of `PollingService.getSocketById`: the source always returns `null`
("implementação simplificada"), so no message is ever delivered. -/
def getSocketById (_clientId : String) : Option Unit := none

/-- Embedding of `PollingService.handlePollingError`: increment the consecutive-error
counter and stop polling once it reaches 5. No event is emitted to the
client; the failure is only logged. -/
def handlePollingError (st : State) (clientId : String) : State :=
  match alFind? st.pollingConfigs clientId with
  | none => st
  | some cfg =>
      let cfg2 := { cfg with errorCount := cfg.errorCount + 1 }
      let st1 := { st with pollingConfigs := alInsert st.pollingConfigs clientId cfg2 }
      if cfg.errorCount + 1 ≥ 5 then stopPolling st1 clientId else st1

/-- Observable output of one polling cycle: the state, how many calls to
`ApiService.fetchMessages` were made, and the error events emitted to the
client's socket (always `[]`: no `socket.emit` exists in
`PollingService`). -/
structure ExecOut where
  state : State
  fetches : Nat
  errorEvents : List String
deriving DecidableEq, Repr

/-- Embedding of `PollingService.processMessages`: return early without a config;
otherwise fetch the key again (outcome `r2`) and, only if a socket were
available (it never is, `getSocketById` is stubbed to `null`), count the
messages. Nothing is ever sent to the client. -/
def processMessages (st : State) (clientId : String) (r2 : Api.PollResultM) :
    State × Nat :=
  match alFind? st.pollingConfigs clientId with
  | none => (st, 0)
  | some _ =>
      if r2.success && decide (r2.messagesProcessed > 0) then
        match getSocketById clientId with
        | some _ => (incrementMessageCount st clientId r2.messagesProcessed, 1)
        | none => (st, 1)
      else (st, 1)

/-- Embedding of `PollingService.executePolling`: one fetch (outcome `r1`); on success
run `processMessages` (which fetches again, outcome `r2`), update
activity, reset the error counter; on failure `handlePollingError`. -/
def executePolling (st : State) (clientId : String) (r1 r2 : Api.PollResultM)
    (now : Nat) : ExecOut :=
  if r1.success then
    let pm := processMessages st clientId r2
    let st2 := updateClientActivity pm.1 clientId now
    let st3 := resetErrorCount st2 clientId
    { state := st3, fetches := 1 + pm.2, errorEvents := [] }
  else
    { state := handlePollingError st clientId, fetches := 1, errorEvents := [] }

/-- One firing of the periodic timer registered by
`setupPeriodicPolling`: it runs only while the client's interval exists. -/
def periodicTick (st : State) (clientId : String) (r1 r2 : Api.PollResultM)
    (now : Nat) : ExecOut :=
  if isClientPolling st clientId then executePolling st clientId r1 r2 now
  else { state := st, fetches := 0, errorEvents := [] }

/-- Outcome of `PollingService.startPolling`: the invalid-key throw, the
already-polling early return, or a started poller. -/
inductive StartOutcome where
  | errorInvalidKey
  | ignoredAlreadyPolling
  | started
deriving DecidableEq, Repr

/-- Output of `PollingService.startPolling`. -/
structure StartOut where
  state : State
  outcome : StartOutcome
  fetches : Nat
  errorEvents : List String
deriving DecidableEq, Repr

/-- Embedding of `PollingService.startPolling`: an invalid key throws (the catch runs
`cleanupClient` and rethrows; `ChatServer.handleStartPolling` then emits
the error event); a client already polling is ignored with a warning;
otherwise set up the client, run one immediate `executePolling`, then
register the periodic timer. -/
def startPolling (st : State) (clientId key : String) (r1 r2 : Api.PollResultM)
    (now : Nat) : StartOut :=
  if !isValidKey key then
    { state := cleanupClient st clientId, outcome := .errorInvalidKey,
      fetches := 0, errorEvents := ["Chave inválida fornecida"] }
  else if isClientPolling st clientId then
    { state := st, outcome := .ignoredAlreadyPolling, fetches := 0, errorEvents := [] }
  else
    let st1 := setupClient st clientId key now
    let ex := executePolling st1 clientId r1 r2 now
    { state := setupPeriodicPolling ex.state clientId, outcome := .started,
      fetches := ex.fetches, errorEvents := ex.errorEvents }

/-- Embedding of `ChatServer.handleStartPolling` (second revision entry point): the
payload is sanitized first; `validateWebSocketInput` is then a no-op
because the payload `\x7b key \x7d` has no `event` field, so
`validateStartPollingData` never runs on this path; the possibly narrowed
key goes to `PollingService.startPolling`. -/
def handleStartPolling (st : State) (clientId rawKey : String)
    (r1 r2 : Api.PollResultM) (now : Nat) : StartOut :=
  let key := Sec.sanitizeString rawKey
  if Sec.validateWebSocketInput none key then
    startPolling st clientId key r1 r2 now
  else
    { state := st, outcome := .errorInvalidKey, fetches := 0, errorEvents := [] }

/-- A run of consecutive failing periodic ticks for one client,
accumulating fetch counts and emitted error events. -/
def runFailingTicks (st : State) (clientId : String) (err : Api.PollResultM)
    (now : Nat) : Nat → ExecOut
  | 0 => { state := st, fetches := 0, errorEvents := [] }
  | n + 1 =>
      let t := periodicTick st clientId err err now
      let rest := runFailingTicks t.state clientId err now n
      { state := rest.state, fetches := t.fetches + rest.fetches,
        errorEvents := t.errorEvents ++ rest.errorEvents }

/-- A failed `PollResultM`, as produced by `ApiService.fetchMessages`
when all attempts are exhausted. -/
def failedResult (msg : String) : Api.PollResultM :=
  { success := false, messagesProcessed := 0, error := some msg }

/-- A successful empty `PollResultM`. -/
def okEmptyResult : Api.PollResultM :=
  { success := true, messagesProcessed := 0, error := none }

end PS

/-- A concrete v1 state: clients "A" and "B" are connected, polling is
active for key "k" with cursor 0, and only "A" has requested that key. -/
def v1DemoState : V1.State :=
  { globalInterval := true, lastIndex := 0, currentKey := "k",
    connected := ["A", "B"], subscriptions := [("A", "k")] }

/-- A concrete v1 state with a single connected, subscribed client. -/
def v1WitnessState : V1.State :=
  { globalInterval := true, lastIndex := 0, currentKey := "k",
    connected := ["A"], subscriptions := [("A", "k")] }

/-- A concrete v1 state mid-run: polling "k" with cursor already at 2. -/
def v1SwitchState : V1.State :=
  { globalInterval := true, lastIndex := 2, currentKey := "k",
    connected := ["A"], subscriptions := [("A", "k")] }

/-- A concrete v1 state mid-run with one connected subscriber and a
non-zero cursor. -/
def v1SoleState : V1.State :=
  { globalInterval := true, lastIndex := 1, currentKey := "k",
    connected := ["A"], subscriptions := [("A", "k")] }

/-- A concrete v1 state after teardown with one client connected and
nothing subscribed. -/
def v1FreshState : V1.State :=
  { globalInterval := false, lastIndex := 0, currentKey := "",
    connected := ["A"], subscriptions := [] }

/-- The event run refuting the per-key lifecycle: "A" subscribes to "k",
"B" merely connects, then "A" — the only subscriber — disconnects. -/
def c3Events : List V1.Event :=
  [V1.Event.connect "A", V1.Event.startPolling "A" "k" (some [("k", [])]),
   V1.Event.connect "B", V1.Event.disconnect "A"]

/-- A v2 state with client "A" polling key "keyA". -/
def psPollingA : PS.State :=
  (PS.startPolling PS.init "A" "keyA" PS.okEmptyResult PS.okEmptyResult 0).state

/-- A v2 state with client "A" polling key "k" and four consecutive
failures already recorded. -/
def psAtFour : PS.State :=
  { clients := [("A", { pollingKey := "k", messageCount := 0,
                        connectedAt := 0, lastActivity := 0 })],
    pollingConfigs := [("A", { key := "k", lastIndex := 0, isActive := true,
                               lastPollTime := 0, errorCount := 4 })],
    intervals := ["A"] }

/-- The immediate cycle of a subscription whose first fetch fails. -/
def c4Start : PS.StartOut :=
  PS.startPolling PS.init "A" "k" (PS.failedResult "HTTP 500: err")
    (PS.failedResult "HTTP 500: err") 0

/-- Five periodic ticks whose fetches all fail, after `c4Start`. -/
def c4Run : PS.ExecOut :=
  PS.runFailingTicks c4Start.state "A" (PS.failedResult "HTTP 500: err") 0 5

/-! ## Theorems -/

theorem alFind?_cleanup_some_le {now : Nat} {m : List (String × Sec.RateEntry)}
    {ip : String} {e : Sec.RateEntry}
    (h : alFind? (Sec.cleanupExpiredCounters now m) ip = some e) :
    now ≤ e.resetTime := by
  induction m with
  | nil => simp [Sec.cleanupExpiredCounters, alFind?] at h
  | cons hd tl ih =>
      obtain ⟨k, v⟩ := hd
      by_cases hk : now > v.resetTime
      · have hrw : Sec.cleanupExpiredCounters now ((k, v) :: tl)
            = Sec.cleanupExpiredCounters now tl := by
          simp [Sec.cleanupExpiredCounters, List.filter_cons, hk]
        rw [hrw] at h
        exact ih h
      · have hrw : Sec.cleanupExpiredCounters now ((k, v) :: tl)
            = (k, v) :: Sec.cleanupExpiredCounters now tl := by
          simp [Sec.cleanupExpiredCounters, List.filter_cons, hk]
        rw [hrw] at h
        by_cases hip : k = ip
        · subst hip
          simp [alFind?] at h
          rw [← h]
          omega
        · simp [alFind?, hip] at h
          exact ih h

/-- C5: on the first request from an origin, or once `now` passes the
recorded reset time (so that the cleanup pass has dropped the entry), the
window restarts with count 1 and expiry `now + windowMs` and the request
is allowed; inside a live window the count increments while below the
maximum; at or above the maximum the request is rejected with
`retryAfterSeconds = ceil((resetTime - now) / 1000)`; concretely, with
the default window of 900000 ms and maximum 100, of 101 requests from one
origin inside one window the first 100 are allowed and the 101st is
rejected with `retryAfterSeconds = 900`. -/
theorem rateLimit_fixed_window_correct :
    (∀ (cfg : Sec.RateConfig) (ip : String) (now : Nat)
       (m : List (String × Sec.RateEntry)),
       alFind? (Sec.cleanupExpiredCounters now m) ip = none →
       Sec.rateLimit cfg ip now m =
         (Sec.RateDecision.allowed,
          alInsert (Sec.cleanupExpiredCounters now m) ip
            { count := 1, resetTime := now + cfg.windowMs })) ∧
    (∀ (cfg : Sec.RateConfig) (ip : String) (now : Nat)
       (m : List (String × Sec.RateEntry)) (e : Sec.RateEntry),
       alFind? (Sec.cleanupExpiredCounters now m) ip = some e →
       e.count < cfg.maxRequests →
       Sec.rateLimit cfg ip now m =
         (Sec.RateDecision.allowed,
          alInsert (Sec.cleanupExpiredCounters now m) ip
            { e with count := e.count + 1 })) ∧
    (∀ (cfg : Sec.RateConfig) (ip : String) (now : Nat)
       (m : List (String × Sec.RateEntry)) (e : Sec.RateEntry),
       alFind? (Sec.cleanupExpiredCounters now m) ip = some e →
       e.count ≥ cfg.maxRequests →
       Sec.rateLimit cfg ip now m =
         (Sec.RateDecision.rejected (Sec.ceilDiv1000 (e.resetTime - now)),
          Sec.cleanupExpiredCounters now m)) ∧
    (Sec.rateLimitRun Sec.defaultRateConfig "origin" (List.replicate 101 5) []).1 =
      List.replicate 100 Sec.RateDecision.allowed ++ [Sec.RateDecision.rejected 900] := by
  refine ⟨?_, ?_, ?_, ?_⟩
  · intro cfg ip now m h
    simp only [Sec.rateLimit]
    rw [h]
  · intro cfg ip now m e h hlt
    have hle : now ≤ e.resetTime := alFind?_cleanup_some_le h
    simp only [Sec.rateLimit]
    rw [h]
    simp [Nat.not_lt.mpr hle, Nat.not_le.mpr hlt]
  · intro cfg ip now m e h hge
    have hle : now ≤ e.resetTime := alFind?_cleanup_some_le h
    simp only [Sec.rateLimit]
    rw [h]
    simp [Nat.not_lt.mpr hle, hge]
  · decide

/-- Witness for `rateLimit_fixed_window_correct` at concrete inputs:
a fresh origin, a live window below the maximum, and a full window. -/
theorem rateLimit_fixed_window_correct_witness :
    Sec.rateLimit Sec.defaultRateConfig "a" 50 [] =
      (Sec.RateDecision.allowed, [("a", { count := 1, resetTime := 900050 })]) ∧
    Sec.rateLimit Sec.defaultRateConfig "a" 60 [("a", { count := 3, resetTime := 900050 })] =
      (Sec.RateDecision.allowed, [("a", { count := 4, resetTime := 900050 })]) ∧
    Sec.rateLimit Sec.defaultRateConfig "a" 60 [("a", { count := 100, resetTime := 900050 })] =
      (Sec.RateDecision.rejected 900, [("a", { count := 100, resetTime := 900050 })]) := by
  refine ⟨?_, ?_, ?_⟩
  · exact rateLimit_fixed_window_correct.1 Sec.defaultRateConfig "a" 50 [] (by decide)
  · have h := rateLimit_fixed_window_correct.2.1 Sec.defaultRateConfig "a" 60
      [("a", { count := 3, resetTime := 900050 })] { count := 3, resetTime := 900050 }
      (by decide) (by decide)
    simpa using h
  · have h := rateLimit_fixed_window_correct.2.2.1 Sec.defaultRateConfig "a" 60
      [("a", { count := 100, resetTime := 900050 })] { count := 100, resetTime := 900050 }
      (by decide) (by decide)
    simpa using h

theorem isValidKeyChar_iff (c : Char) :
    Sec.isValidKeyChar c = true ↔
      (c.isAlpha = true ∨ c.isDigit = true ∨ c = '_' ∨ c = '-') := by
  simp only [Sec.isValidKeyChar, Bool.or_eq_true, decide_eq_true_iff]
  tauto

theorem string_length_pos_iff (key : String) : 0 < key.length ↔ key ≠ "" := by
  rw [String.length]
  constructor
  · intro h hk
    rw [hk] at h
    simp at h
  · intro h
    rcases Nat.eq_zero_or_pos key.data.length with h0 | hpos
    · exact absurd (by cases key with
        | mk data => simp at h0 ⊢; simp [h0]) h
    · exact hpos

theorem isValidKey_iff_spec (key : String) :
    isValidKey key = true ↔ Sec.SpecValidKey key := by
  unfold isValidKey Sec.SpecValidKey Sec.regexKeyTest
  simp only [Bool.and_eq_true, decide_eq_true_iff, Bool.not_eq_true',
    List.all_eq_true, String.isEmpty_iff]
  constructor
  · intro ⟨⟨hpos, hle⟩, _, hall⟩
    exact ⟨(string_length_pos_iff key).1 hpos, hle,
      fun c hc => (isValidKeyChar_iff c).1 (hall c hc)⟩
  · intro ⟨hne, hle, hall⟩
    refine ⟨⟨(string_length_pos_iff key).2 hne, hle⟩, ?_, ?_⟩
    · rw [Bool.eq_false_iff]
      intro h
      exact hne ((String.isEmpty_iff key).1 h)
    · exact fun c hc => (isValidKeyChar_iff c).2 (hall c hc)

theorem validateStartPollingKey_ok_iff_isValidKey (key : String) :
    Sec.validateStartPollingKey key = .ok ↔ isValidKey key = true := by
  unfold Sec.validateStartPollingKey
  by_cases hemp : key.isEmpty
  · rw [if_pos hemp]
    have hkey : key = "" := (String.isEmpty_iff key).1 hemp
    subst hkey
    simp [isValidKey]
  · rw [if_neg hemp]
    have hne : key ≠ "" := fun h => hemp (by rw [h]; decide)
    have hpos : 0 < key.length := (string_length_pos_iff key).2 hne
    by_cases hlen : key.length > 100
    · have hcond : (decide (key.length = 0) || decide (key.length > 100)) = true := by
        simp [hlen]
      rw [if_pos hcond]
      constructor
      · intro h; cases h
      · intro h
        simp only [isValidKey, Bool.and_eq_true, decide_eq_true_iff] at h
        omega
    · have hcond : (decide (key.length = 0) || decide (key.length > 100)) = false := by
        simp
        omega
      rw [if_neg (by simp [hcond])]
      by_cases hreg : Sec.regexKeyTest key = true
      · rw [if_neg (by simp [hreg])]
        simp only [isValidKey, hreg, Bool.and_eq_true, decide_eq_true_iff]
        exact ⟨fun _ => ⟨⟨hpos, by omega⟩, trivial⟩, fun _ => trivial⟩
      · rw [if_pos (by simp [Bool.not_eq_true] at hreg ⊢; exact hreg)]
        constructor
        · intro h; cases h
        · intro h
          simp only [isValidKey, Bool.and_eq_true] at h
          exact absurd h.2 hreg

theorem validateStartPollingKey_ok_iff (key : String) :
    Sec.validateStartPollingKey key = .ok ↔ Sec.SpecValidKey key := by
  rw [validateStartPollingKey_ok_iff_isValidKey, isValidKey_iff_spec]

theorem retryGo_attempts_le (outcome : Nat → Except Api.ApiError Api.RawResponse)
    (base : Nat) :
    ∀ (rem attempt : Nat), (Api.retryGo outcome base attempt rem).2.2 ≤ rem + 1 := by
  intro rem
  induction rem with
  | zero =>
      intro attempt
      unfold Api.retryGo
      cases outcome attempt <;> simp
  | succ n ih =>
      intro attempt
      unfold Api.retryGo
      cases outcome attempt with
      | ok r => simp
      | error e =>
          simp only []
          have := ih (attempt + 1)
          omega

theorem retryGo_all_fail (errf : Nat → Api.ApiError) (base : Nat) :
    ∀ (rem attempt : Nat),
    Api.retryGo (fun i => .error (errf i)) base attempt rem =
      (.error (errf (attempt + rem)),
       (List.range' attempt rem).map (fun i => 2 ^ i * base), rem + 1) := by
  intro rem
  induction rem with
  | zero =>
      intro attempt
      unfold Api.retryGo
      simp [List.range']
  | succ n ih =>
      intro attempt
      unfold Api.retryGo
      simp only [ih (attempt + 1), List.range', List.map_cons]
      have harg : attempt + 1 + n = attempt + (n + 1) := by omega
      rw [harg]

theorem retryGo_first_success (outcome : Nat → Except Api.ApiError Api.RawResponse)
    (base rem attempt : Nat) (r : Api.RawResponse) (h : outcome attempt = .ok r) :
    Api.retryGo outcome base attempt rem = (.ok r, [], 1) := by
  unfold Api.retryGo
  rw [h]

/-- C6: one fetch operation attempts the GET at most `maxAttempts` times
(`API_RETRY_ATTEMPTS`, default 3); when every attempt fails it performs
exactly `maxAttempts` attempts, sleeping `2 ^ attempt * baseDelayMs`
after every failed attempt except the last (attempt numbering starting at
1), and the failed result carries the last observed error rendered by the
classifier; a first-attempt success ends the loop at once; and the
classifier always yields one of the four shapes: HTTP-status failure,
timeout, connection failure, or the unknown fallback. -/
theorem fetch_retry_backoff_classified :
    (∀ (outcome : Nat → Except Api.ApiError Api.RawResponse) (base maxAttempts : Nat),
       1 ≤ maxAttempts →
       (Api.makeRequestWithRetry outcome base maxAttempts).2.2 ≤ maxAttempts) ∧
    (∀ (errf : Nat → Api.ApiError) (base maxAttempts : Nat), 1 ≤ maxAttempts →
       Api.makeRequestWithRetry (fun i => .error (errf i)) base maxAttempts =
         (.error (errf maxAttempts),
          (List.range' 1 (maxAttempts - 1)).map (fun i => 2 ^ i * base),
          maxAttempts)) ∧
    (∀ (outcome : Nat → Except Api.ApiError Api.RawResponse) (base maxAttempts : Nat)
       (r : Api.RawResponse), outcome 1 = .ok r →
       Api.makeRequestWithRetry outcome base maxAttempts = (.ok r, [], 1)) ∧
    (∀ (errf : Nat → Api.ApiError) (maxAttempts base maxBatch : Nat) (key : String),
       1 ≤ maxAttempts → isValidKey key = true →
       (Api.fetchMessages maxAttempts base maxBatch key (fun i => .error (errf i))).1 =
         { success := false, messagesProcessed := 0,
           error := some (Api.getErrorMessage (errf maxAttempts)) }) ∧
    (∀ e : Api.ApiError,
       (∃ st, e.responseStatus = some st ∧ st ≠ 0 ∧
          Api.getErrorMessage e = "HTTP " ++ toString st ++ ": " ++ e.responseStatusText) ∨
       Api.getErrorMessage e = "Timeout na requisição" ∨
       Api.getErrorMessage e = "Servidor não encontrado" ∨
       Api.getErrorMessage e = e.message ∨
       Api.getErrorMessage e = "Erro desconhecido") := by
  have hfail : ∀ (errf : Nat → Api.ApiError) (base maxAttempts : Nat), 1 ≤ maxAttempts →
      Api.makeRequestWithRetry (fun i => .error (errf i)) base maxAttempts =
        (.error (errf maxAttempts),
         (List.range' 1 (maxAttempts - 1)).map (fun i => 2 ^ i * base),
         maxAttempts) := by
    intro errf base maxAttempts h
    unfold Api.makeRequestWithRetry
    rw [retryGo_all_fail]
    rw [show 1 + (maxAttempts - 1) = maxAttempts from by omega,
        show maxAttempts - 1 + 1 = maxAttempts from by omega]
  have htail : ∀ e : Api.ApiError,
      Api.getErrorMessageTail e = "Timeout na requisição" ∨
      Api.getErrorMessageTail e = "Servidor não encontrado" ∨
      Api.getErrorMessageTail e = e.message ∨
      Api.getErrorMessageTail e = "Erro desconhecido" := by
    intro e
    by_cases h1 : e.code = some "ECONNABORTED"
    · left; simp [Api.getErrorMessageTail, h1]
    · by_cases h2 : e.code = some "ENOTFOUND"
      · right; left; simp [Api.getErrorMessageTail, h1, h2]
      · by_cases h3 : e.message = ""
        · right; right; right; simp [Api.getErrorMessageTail, h1, h2, h3]
        · right; right; left; simp [Api.getErrorMessageTail, h1, h2, h3]
  refine ⟨?_, hfail, ?_, ?_, ?_⟩
  · intro outcome base maxAttempts h
    unfold Api.makeRequestWithRetry
    have := retryGo_attempts_le outcome base (maxAttempts - 1) 1
    omega
  · intro outcome base maxAttempts r h
    unfold Api.makeRequestWithRetry
    exact retryGo_first_success outcome base (maxAttempts - 1) 1 r h
  · intro errf maxAttempts base maxBatch key hatt hkey
    unfold Api.fetchMessages
    rw [hkey]
    rw [hfail errf base maxAttempts hatt]
    simp
  · intro e
    rcases hrs : e.responseStatus with _ | st
    · have h := htail e
      have hred : Api.getErrorMessage e = Api.getErrorMessageTail e := by
        unfold Api.getErrorMessage
        rw [hrs]
      rw [hred]
      tauto
    · by_cases h0 : st = 0
      · subst h0
        have h := htail e
        have hred : Api.getErrorMessage e = Api.getErrorMessageTail e := by
          unfold Api.getErrorMessage
          rw [hrs]
          simp
        rw [hred]
        tauto
      · left
        refine ⟨st, rfl, h0, ?_⟩
        unfold Api.getErrorMessage
        rw [hrs]
        simp [h0]

/-- Witness for `fetch_retry_backoff_classified`: with the default 3
attempts and base delay 1000 ms, an always-failing HTTP 500 fetch
performs 3 attempts with backoff sleeps of 2000 ms and 4000 ms and
surfaces the classified error. -/
theorem fetch_retry_backoff_classified_witness :
    Api.makeRequestWithRetry
        (fun _ => .error { responseStatus := some 500,
                           responseStatusText := "Internal Server Error",
                           code := none, message := "Request failed" }) 1000 3 =
      (.error { responseStatus := some 500,
                responseStatusText := "Internal Server Error",
                code := none, message := "Request failed" }, [2000, 4000], 3) ∧
    (Api.fetchMessages 3 1000 100 "abc"
        (fun _ => .error { responseStatus := some 500,
                           responseStatusText := "Internal Server Error",
                           code := none, message := "Request failed" })).1 =
      { success := false, messagesProcessed := 0,
        error := some "HTTP 500: Internal Server Error" } := by
  constructor
  · have h := fetch_retry_backoff_classified.2.1
      (fun _ => { responseStatus := some 500,
                  responseStatusText := "Internal Server Error",
                  code := none, message := "Request failed" }) 1000 3 (by decide)
    simpa [List.range'] using h
  · have h := fetch_retry_backoff_classified.2.2.2.1
      (fun _ => { responseStatus := some 500,
                  responseStatusText := "Internal Server Error",
                  code := none, message := "Request failed" }) 3 1000 100 "abc"
      (by decide) (by rfl)
    rw [h]
    rfl

/-- C7: a response body with no property, an empty-string first property
name, or a first property that is not an array yields zero entries, and
through `fetchMessages` that is a successful result rather than an error;
every returned entry is a string of positive length at most 10000
(oversized or non-string entries are dropped silently); and the number of
entries returned by one fetch never exceeds `MAX_MESSAGES_PER_BATCH`
(default 100). -/
theorem processApiResponse_lenient_bounded :
    (∀ maxBatch : Nat, Api.processApiResponse maxBatch [] = []) ∧
    (∀ (maxBatch : Nat) (k : String) (v : Api.JVal) (rest : Api.RawResponse),
       (∀ xs, v ≠ Api.JVal.arr xs) →
       Api.processApiResponse maxBatch ((k, v) :: rest) = []) ∧
    (∀ (maxAttempts base maxBatch : Nat) (key : String) (data : Api.RawResponse),
       isValidKey key = true →
       (Api.fetchMessages maxAttempts base maxBatch key (fun _ => .ok data)).1 =
         { success := true,
           messagesProcessed := (Api.processApiResponse maxBatch data).length,
           error := none }) ∧
    (∀ (maxBatch : Nat) (data : Api.RawResponse) (v : Api.JVal),
       v ∈ Api.processApiResponse maxBatch data →
       ∃ s, v = Api.JVal.str s ∧ 0 < s.length ∧ s.length ≤ 10000) ∧
    (∀ (maxBatch : Nat) (data : Api.RawResponse),
       (Api.processApiResponse maxBatch data).length ≤ maxBatch) := by
  refine ⟨?_, ?_, ?_, ?_, ?_⟩
  · intro maxBatch
    rfl
  · intro maxBatch k v rest h
    cases v with
    | str s => by_cases hk : k = "" <;> simp [Api.processApiResponse, hk]
    | arr xs => exact absurd rfl (h xs)
    | other => by_cases hk : k = "" <;> simp [Api.processApiResponse, hk]
  · intro maxAttempts base maxBatch key data hkey
    unfold Api.fetchMessages
    rw [hkey]
    have hmk : Api.makeRequestWithRetry (fun _ => Except.ok data) base maxAttempts
        = (Except.ok data, [], 1) :=
      retryGo_first_success (fun _ => Except.ok data) base (maxAttempts - 1) 1 data rfl
    rw [hmk]
    simp
  · intro maxBatch data v hv
    cases data with
    | nil => simp [Api.processApiResponse] at hv
    | cons hd rest =>
        obtain ⟨k, val⟩ := hd
        by_cases hk : k = ""
        · simp [Api.processApiResponse, hk] at hv
        · cases val with
          | str s => simp [Api.processApiResponse, hk] at hv
          | other => simp [Api.processApiResponse, hk] at hv
          | arr xs =>
              simp only [Api.processApiResponse, if_neg hk] at hv
              have hmem := List.mem_of_mem_take hv
              have hval := List.of_mem_filter hmem
              cases v with
              | str s =>
                  have hprop : 0 < s.length ∧ s.length ≤ 10000 := by
                    simpa [Api.isValidMessage] using hval
                  exact ⟨s, rfl, hprop.1, hprop.2⟩
              | arr ys => simp [Api.isValidMessage] at hval
              | other => simp [Api.isValidMessage] at hval
  · intro maxBatch data
    cases data with
    | nil => simp [Api.processApiResponse]
    | cons hd rest =>
        obtain ⟨k, val⟩ := hd
        by_cases hk : k = ""
        · simp [Api.processApiResponse, hk]
        · cases val with
          | str s => simp [Api.processApiResponse, hk]
          | other => simp [Api.processApiResponse, hk]
          | arr xs =>
              simp only [Api.processApiResponse, if_neg hk]
              rw [List.length_take]
              exact min_le_left _ _

/-- Witness for `processApiResponse_lenient_bounded`: a body whose only
property is not an array produces zero entries and a successful fetch
result. -/
theorem processApiResponse_lenient_bounded_witness :
    Api.processApiResponse 100 [("messages", Api.JVal.other)] = [] ∧
    (Api.fetchMessages 3 1000 100 "abc"
        (fun _ => .ok [("messages", Api.JVal.other)])).1 =
      { success := true, messagesProcessed := 0, error := none } := by
  constructor
  · exact processApiResponse_lenient_bounded.2.1 100 "messages" Api.JVal.other []
      (fun xs h => Api.JVal.noConfusion h)
  · have h := processApiResponse_lenient_bounded.2.2.1 3 1000 100 "abc"
      [("messages", Api.JVal.other)] (by rfl)
    rw [h]
    rfl

theorem emitList_eq (xs : List String) : ∀ i, V1.emitList xs i = (xs, i + xs.length) := by
  induction xs with
  | nil => intro i; simp [V1.emitList]
  | cons m rest ih =>
      intro i
      simp [V1.emitList, ih (i + 1)]
      omega

theorem emitLoop_fst (raw : List String) (i : Nat) :
    (V1.emitLoop raw i).1 = raw.drop i := by
  unfold V1.emitLoop
  rw [emitList_eq]

theorem emitLoop_le (raw : List String) (i : Nat) (h : i ≤ raw.length) :
    V1.emitLoop raw i = (raw.drop i, raw.length) := by
  unfold V1.emitLoop
  rw [emitList_eq]
  rw [List.length_drop]
  congr 1
  omega

theorem emitLoop_gt (raw : List String) (i : Nat) (h : raw.length < i) :
    V1.emitLoop raw i = ([], i) := by
  unfold V1.emitLoop
  rw [List.drop_eq_nil_of_le (by omega)]
  simp [V1.emitList]

theorem emitLoop_cursor (raw : List String) (i : Nat) :
    (V1.emitLoop raw i).2 = max i raw.length := by
  unfold V1.emitLoop
  rw [emitList_eq]
  rw [List.length_drop]
  omega

theorem fetchAndEmit_frame (st : V1.State) (resp : V1.FetchResp) :
    (V1.fetchAndEmit st resp).1.currentKey = st.currentKey ∧
    (V1.fetchAndEmit st resp).1.connected = st.connected ∧
    (V1.fetchAndEmit st resp).1.globalInterval = st.globalInterval ∧
    (V1.fetchAndEmit st resp).1.subscriptions = st.subscriptions := by
  unfold V1.fetchAndEmit
  by_cases hk : st.currentKey = "" <;> cases resp <;> simp [hk]

theorem fetchAndEmit_lastIndex_le (st : V1.State) (resp : V1.FetchResp) :
    st.lastIndex ≤ (V1.fetchAndEmit st resp).1.lastIndex := by
  unfold V1.fetchAndEmit
  by_cases hk : st.currentKey = ""
  · simp [hk]
  · cases resp with
    | none => simp [hk]
    | some fields =>
        simp only [hk, if_neg, ite_false]
        have h := emitLoop_cursor (V1.firstFieldMsgs fields) st.lastIndex
        simp [hk, h]

theorem runTicks_lastIndex_le (st : V1.State) (rss : List (List String)) :
    st.lastIndex ≤ (V1.runTicks st rss).1.lastIndex := by
  induction rss generalizing st with
  | nil => simp [V1.runTicks]
  | cons raw rest ih =>
      unfold V1.runTicks
      exact le_trans (fetchAndEmit_lastIndex_le st _) (ih _)

theorem growsTo_length_le {a b : List String} (h : V1.GrowsTo a b) :
    a.length ≤ b.length := by
  have h1 := congrArg List.length h
  rw [List.length_take] at h1
  omega

theorem growsTo_trans {a b c : List String}
    (hab : V1.GrowsTo a b) (hbc : V1.GrowsTo b c) : V1.GrowsTo a c := by
  have hlen : a.length ≤ b.length := growsTo_length_le hab
  unfold V1.GrowsTo at *
  calc c.take a.length = (c.take b.length).take a.length := by
        rw [List.take_take, Nat.min_eq_left hlen]
    _ = b.take a.length := by rw [hbc]
    _ = a := hab

theorem chain_growsTo_getLastD (xs : List (List String)) :
    ∀ x, List.Chain' V1.GrowsTo (x :: xs) → V1.GrowsTo x (xs.getLastD x) := by
  induction xs with
  | nil =>
      intro x _
      simp [V1.GrowsTo, List.take_length]
  | cons y ys ih =>
      intro x h
      rw [List.getLastD_cons]
      exact growsTo_trans (List.chain'_cons.mp h).1 (ih y (List.chain'_cons.mp h).2)

theorem drop_append_growsTo {a L : List String} (h : V1.GrowsTo a L)
    {c : Nat} (hc : c ≤ a.length) :
    a.drop c ++ L.drop a.length = L.drop c := by
  have hL : L = a ++ L.drop a.length := by
    conv_lhs => rw [← List.take_append_drop a.length L]
    rw [h]
  conv_rhs => rw [hL]
  rw [List.drop_append_of_le_length hc]

theorem fetchAndEmit_ok (st : V1.State) (f : String) (raw : List String)
    (hk : st.currentKey ≠ "") (hle : st.lastIndex ≤ raw.length) :
    V1.fetchAndEmit st (some [(f, raw)]) =
      ({ st with lastIndex := raw.length },
       { fetched := true,
         broadcasts := (raw.drop st.lastIndex).map
           (fun m => { targets := st.connected, payload := m }) }) := by
  unfold V1.fetchAndEmit
  rw [if_neg hk]
  simp only [V1.firstFieldMsgs, emitLoop_le raw st.lastIndex hle]

theorem runTicks_growing (rss : List (List String)) :
    ∀ st : V1.State, st.currentKey ≠ "" →
    List.Chain' V1.GrowsTo rss →
    (∀ l ∈ rss.head?, st.lastIndex ≤ l.length) →
    V1.deliveredStream (V1.runTicks st rss).2 = (rss.getLastD []).drop st.lastIndex ∧
    ∀ o ∈ (V1.runTicks st rss).2, ∀ b ∈ o.broadcasts, b.targets = st.connected := by
  induction rss with
  | nil =>
      intro st hk hchain hhead
      simp [V1.runTicks, V1.deliveredStream]
  | cons raw rest ih =>
      intro st hk hchain hhead
      have hle : st.lastIndex ≤ raw.length := hhead raw rfl
      have hfe := fetchAndEmit_ok st "messages" raw hk hle
      have hrest := ih { st with lastIndex := raw.length } hk
        (List.Chain'.tail hchain)
        (by
          intro l hl
          cases rest with
          | nil => simp at hl
          | cons y ys =>
              simp at hl
              subst hl
              exact growsTo_length_le (List.chain'_cons.mp hchain).1)
      unfold V1.runTicks
      rw [hfe]
      constructor
      · simp only [V1.deliveredStream, List.map_cons, List.flatten_cons]
        have hdel : ((raw.drop st.lastIndex).map
            (fun m => ({ targets := st.connected, payload := m } : V1.Broadcast))).map
              (fun b => b.payload) = raw.drop st.lastIndex := by
          rw [List.map_map]
          have hcomp : ((fun b => b.payload) ∘
              fun m => ({ targets := st.connected, payload := m } : V1.Broadcast)) =
                fun m => m := by
            funext m
            rfl
          rw [hcomp, List.map_id']
        rw [hdel]
        have h1 := hrest.1
        simp only [V1.deliveredStream] at h1
        rw [h1]
        cases rest with
        | nil => simp [List.getLastD_cons]
        | cons y ys =>
            rw [List.getLastD_cons, List.getLastD_cons, List.getLastD_cons]
            have hgrow : V1.GrowsTo raw (ys.getLastD y) := by
              have h := chain_growsTo_getLastD (y :: ys) raw hchain
              rwa [List.getLastD_cons] at h
            exact drop_append_growsTo hgrow hle
      · intro o ho b hb
        rcases List.mem_cons.mp ho with ho | ho
        · subst ho
          obtain ⟨m, hm, hbm⟩ := List.mem_map.mp hb
          subst hbm
          rfl
        · exact hrest.2 o ho b hb

/-- C1 counterexample: in `src/server.ts` delivery is `io.emit`, a
broadcast. With "A" subscribed to "k" and "B" merely connected, the tick
delivers the new entry to both "A" and "B", although "B" is not
subscribed to "k" — refuting "to no other connection". -/
theorem v1_delivery_not_restricted_to_subscribers :
    (V1.step v1DemoState (V1.Event.tick (some [("k", ["m1"])]))).2.broadcasts =
      [{ targets := ["A", "B"], payload := "m1" }] ∧
    V1.subscribersOf v1DemoState "k" = ["A"] := by
  constructor <;> rfl

/-- C1 (amended): in the v1 engine, over any run of successful ticks
whose raw sequences only grow, starting from cursor 0 with a non-empty
current key, the stream of delivered payloads equals the final raw
sequence — in order, no duplicates, no gaps — but every delivery is
broadcast to every currently connected socket (subscribed to the key or
not), rather than to the key's subscribers only. -/
theorem v1_broadcast_relay_order (st : V1.State) (rss : List (List String))
    (hkey : st.currentKey ≠ "") (hidx : st.lastIndex = 0)
    (hchain : List.Chain' V1.GrowsTo rss) :
    V1.deliveredStream (V1.runTicks st rss).2 = rss.getLastD [] ∧
    ∀ o ∈ (V1.runTicks st rss).2, ∀ b ∈ o.broadcasts, b.targets = st.connected := by
  have h := runTicks_growing rss st hkey hchain (by intro l hl; simp [hidx])
  refine ⟨?_, h.2⟩
  rw [h.1, hidx, List.drop_zero]

/-- Witness for `v1_broadcast_relay_order`: two growing ticks,
`["x"]` then `["x", "y"]`, deliver exactly `["x", "y"]` to the connected
sockets. -/
theorem v1_broadcast_relay_order_witness :
    V1.deliveredStream (V1.runTicks v1WitnessState [["x"], ["x", "y"]]).2 = ["x", "y"] ∧
    ∀ o ∈ (V1.runTicks v1WitnessState [["x"], ["x", "y"]]).2,
      ∀ b ∈ o.broadcasts, b.targets = ["A"] := by
  have h := v1_broadcast_relay_order v1WitnessState [["x"], ["x", "y"]]
    (by decide) (by decide)
    (List.chain'_cons.mpr ⟨by decide, List.chain'_singleton _⟩)
  exact h

/-- C2: the dedup step of `fetchAndEmit` (its `while` loop) returns
exactly the suffix `rawMsgs[c..L)` and sets the cursor to `L` when
`c ≤ L`; when `L < c` it returns no entries and leaves the cursor at `c`
without underflow; one tick never decreases `lastIndex`; and over any run
of ticks the cursor is monotone for the lifetime of the state. -/
theorem dedup_suffix_cursor_monotone :
    (∀ (raw : List String) (c : Nat), c ≤ raw.length →
       V1.emitLoop raw c = (raw.drop c, raw.length)) ∧
    (∀ (raw : List String) (c : Nat), raw.length < c →
       V1.emitLoop raw c = ([], c)) ∧
    (∀ (st : V1.State) (resp : V1.FetchResp),
       st.lastIndex ≤ (V1.fetchAndEmit st resp).1.lastIndex) ∧
    (∀ (st : V1.State) (rss : List (List String)),
       st.lastIndex ≤ (V1.runTicks st rss).1.lastIndex) :=
  ⟨emitLoop_le, emitLoop_gt, fetchAndEmit_lastIndex_le, runTicks_lastIndex_le⟩

/-- Witness for `dedup_suffix_cursor_monotone`: cursor 1 on a 3-entry
sequence delivers the 2-entry suffix and moves the cursor to 3; a
shrunken sequence (length 1, cursor 5) delivers nothing and keeps the
cursor. -/
theorem dedup_suffix_cursor_monotone_witness :
    V1.emitLoop ["a", "b", "c"] 1 = (["b", "c"], 3) ∧
    V1.emitLoop ["a"] 5 = ([], 5) :=
  ⟨dedup_suffix_cursor_monotone.1 ["a", "b", "c"] 1 (by decide),
   dedup_suffix_cursor_monotone.2.1 ["a"] 5 (by decide)⟩

/-- C10: in the v1 engine, when the shared interval is already running, a
`startPolling` request from any connected client only overwrites the
single shared `currentKey`: no immediate fetch happens, nothing is
delivered, and the shared cursor `lastIndex` is untouched — so the next
tick applies the previous key's cursor position to the new key's raw
sequence, delivering only its suffix past the old cursor. -/
theorem v1_startPolling_overwrites_key_keeps_cursor
    (st : V1.State) (id key : String) (resp : V1.FetchResp)
    (hint : st.globalInterval = true) (hconn : st.connected.contains id = true) :
    (V1.step st (V1.Event.startPolling id key resp)).1 =
      { st with currentKey := key,
                subscriptions := alInsert st.subscriptions id key } ∧
    (V1.step st (V1.Event.startPolling id key resp)).2 = V1.noOut ∧
    (key ≠ "" → ∀ fields,
      (V1.step (V1.step st (V1.Event.startPolling id key resp)).1
          (V1.Event.tick (some fields))).2.broadcasts =
        ((V1.firstFieldMsgs fields).drop st.lastIndex).map
          (fun m => { targets := st.connected, payload := m })) := by
  have hstep : V1.step st (V1.Event.startPolling id key resp) =
      ({ st with currentKey := key,
                 subscriptions := alInsert st.subscriptions id key }, V1.noOut) := by
    unfold V1.step
    dsimp only
    rw [hconn]
    simp [hint]
  refine ⟨by rw [hstep], by rw [hstep], ?_⟩
  intro hkey fields
  rw [hstep]
  unfold V1.step
  dsimp only
  simp only [hint, if_true]
  unfold V1.fetchAndEmit
  dsimp only
  rw [if_neg hkey]
  simp only [V1.firstFieldMsgs, emitLoop_fst]

/-- Witness for `v1_startPolling_overwrites_key_keeps_cursor`: with the
interval running for key "k" and cursor 2, a request for "k2" only
swaps the key; the next tick for "k2" with 3 entries delivers only the
third. -/
theorem v1_startPolling_overwrites_key_keeps_cursor_witness :
    (V1.step v1SwitchState (V1.Event.startPolling "A" "k2" none)).1 =
      { v1SwitchState with currentKey := "k2",
                           subscriptions := alInsert v1SwitchState.subscriptions "A" "k2" } ∧
    (V1.step v1SwitchState (V1.Event.startPolling "A" "k2" none)).2 = V1.noOut ∧
    (V1.step (V1.step v1SwitchState (V1.Event.startPolling "A" "k2" none)).1
        (V1.Event.tick (some [("k2", ["p", "q", "r"])]))).2.broadcasts =
      [{ targets := ["A"], payload := "r" }] := by
  have h := v1_startPolling_overwrites_key_keeps_cursor v1SwitchState "A" "k2" none
    (by decide) (by decide)
  refine ⟨h.1, h.2.1, ?_⟩
  rw [h.2.2 (by decide) [("k2", ["p", "q", "r"])]]
  rfl

theorem listInsert_ne_nil (xs : List String) (x : String) : listInsert xs x ≠ [] := by
  unfold listInsert
  by_cases h : xs.contains x = true
  · rw [if_pos h]
    intro hnil
    rw [hnil] at h
    simp at h
  · rw [if_neg h]
    simp

theorem contains_ne_nil {xs : List String} {x : String}
    (h : xs.contains x = true) : xs ≠ [] := by
  intro hnil
  rw [hnil] at h
  simp at h

theorem v1_step_inv (st : V1.State) (e : V1.Event) (h : V1.Inv st) :
    V1.Inv (V1.step st e).1 := by
  obtain ⟨h1, h2⟩ := h
  cases e with
  | connect id =>
      unfold V1.step
      dsimp only
      exact ⟨fun _ => listInsert_ne_nil st.connected id, fun hint => h2 hint⟩
  | startPolling id key resp =>
      unfold V1.step
      dsimp only
      by_cases hc : st.connected.contains id = true
      · rw [if_pos hc]
        by_cases hg : st.globalInterval = true
        · rw [if_pos hg]
          refine ⟨fun _ => h1 hg, fun hf => ?_⟩
          rw [hg] at hf
          cases hf
        · rw [if_neg hg]
          dsimp only
          have hframe := fetchAndEmit_frame
            { st with currentKey := key,
                      subscriptions := alInsert st.subscriptions id key } resp
          refine ⟨fun _ => ?_, fun hf => ?_⟩
          · rw [hframe.2.1]
            exact contains_ne_nil hc
          · cases hf
      · rw [if_neg hc]
        exact ⟨h1, h2⟩
  | disconnect id =>
      unfold V1.step
      dsimp only
      by_cases hcond :
          ((st.connected.filter (fun x => x != id)).isEmpty && st.globalInterval) = true
      · rw [if_pos hcond]
        dsimp only
        exact ⟨fun hf => Bool.noConfusion hf, fun _ => ⟨rfl, rfl⟩⟩
      · rw [if_neg hcond]
        dsimp only
        refine ⟨fun hg => ?_, fun hg => h2 hg⟩
        rw [Bool.and_eq_true] at hcond
        push_neg at hcond
        intro hnil
        have hg2 : st.globalInterval = true := hg
        have hnil2 : st.connected.filter (fun x => x != id) = [] := hnil
        have hemp : (st.connected.filter (fun x => x != id)).isEmpty = true := by
          rw [hnil2]
          rfl
        exact absurd hg2 (hcond hemp)
  | tick resp =>
      unfold V1.step
      dsimp only
      by_cases hg : st.globalInterval = true
      · rw [if_pos hg]
        have hframe := fetchAndEmit_frame st resp
        refine ⟨fun _ => ?_, fun hf => ?_⟩
        · rw [hframe.2.1]
          exact h1 hg
        · rw [hframe.2.2.1, hg] at hf
          cases hf
      · rw [if_neg hg]
        exact ⟨h1, h2⟩

theorem v1_run_inv (es : List V1.Event) :
    ∀ st, V1.Inv st → V1.Inv (V1.run st es).1 := by
  induction es with
  | nil => intro st h; exact h
  | cons e rest ih =>
      intro st h
      unfold V1.run
      exact ih _ (v1_step_inv st e h)

theorem v1_init_inv : V1.Inv V1.init :=
  ⟨fun h => Bool.noConfusion h, fun _ => ⟨rfl, rfl⟩⟩

/-- C3 counterexample: after "A" subscribes to "k", "B" connects without
subscribing, and "A" disconnects, the v1 polling state survives with zero
subscribers to "k", and the next tick still fetches and even delivers the
new entry to "B" — refuting both directions of the claimed lifecycle. -/
theorem v1_polls_with_zero_subscribers :
    (V1.run V1.init c3Events).1.globalInterval = true ∧
    V1.subscribersOf (V1.run V1.init c3Events).1 "k" = [] ∧
    (V1.step (V1.run V1.init c3Events).1 (V1.Event.tick (some [("k", ["m"])]))).2 =
      { fetched := true, broadcasts := [{ targets := ["B"], payload := "m" }] } :=
  ⟨rfl, rfl, rfl⟩

/-- C3 (amended): in the v1 engine polling state is tied to the
connection count, not to per-key subscriber counts: in every reachable
state the interval only runs while some client is connected, and while
the interval is down the cursor and key hold their reset values; a
disconnect that empties the connection set tears the poller down (cursor
0, key "", interval off); and from a torn-down state a new subscription
performs its immediate fetch from position 0, re-delivering the whole raw
sequence. Fetches for a key may continue while that key has zero
subscribers, as long as any client stays connected. -/
theorem v1_teardown_on_zero_connections :
    (∀ es : List V1.Event, V1.Inv (V1.run V1.init es).1) ∧
    (∀ (st : V1.State) (id : String), V1.Inv st →
       (V1.step st (V1.Event.disconnect id)).1.connected = [] →
       (V1.step st (V1.Event.disconnect id)).1.globalInterval = false ∧
       (V1.step st (V1.Event.disconnect id)).1.lastIndex = 0 ∧
       (V1.step st (V1.Event.disconnect id)).1.currentKey = "") ∧
    (∀ (st : V1.State) (id key : String) (fields : List (String × List String)),
       V1.Inv st → st.globalInterval = false → st.connected.contains id = true →
       key ≠ "" →
       (V1.step st (V1.Event.startPolling id key (some fields))).2.broadcasts =
         (V1.firstFieldMsgs fields).map
           (fun m => { targets := st.connected, payload := m })) := by
  refine ⟨fun es => v1_run_inv es V1.init v1_init_inv, ?_, ?_⟩
  · intro st id hinv hnil
    revert hnil
    unfold V1.step
    dsimp only
    by_cases hcond :
        ((st.connected.filter (fun x => x != id)).isEmpty && st.globalInterval) = true
    · rw [if_pos hcond]
      intro _
      exact ⟨rfl, rfl, rfl⟩
    · rw [if_neg hcond]
      dsimp only
      intro hnil
      rw [Bool.and_eq_true] at hcond
      push_neg at hcond
      have hnil2 : st.connected.filter (fun x => x != id) = [] := hnil
      have hemp : (st.connected.filter (fun x => x != id)).isEmpty = true := by
        rw [hnil2]
        rfl
      have hgf : st.globalInterval = false := by
        cases hgi : st.globalInterval with
        | false => rfl
        | true => exact absurd hgi (hcond hemp)
      refine ⟨hgf, (hinv.2 hgf).1, (hinv.2 hgf).2⟩
  · intro st id key fields hinv hg hc hkey
    unfold V1.step
    dsimp only
    rw [if_pos hc]
    rw [if_neg (by rw [hg]; exact Bool.noConfusion)]
    dsimp only
    unfold V1.fetchAndEmit
    dsimp only
    rw [if_neg hkey]
    dsimp only
    rw [emitLoop_fst]
    rw [(hinv.2 hg).1, List.drop_zero]

/-- Witness for `v1_teardown_on_zero_connections`: the sole client's
disconnect resets the poller, and a subscription in a torn-down state
re-delivers the whole raw sequence from position 0. -/
theorem v1_teardown_on_zero_connections_witness :
    ((V1.step v1SoleState (V1.Event.disconnect "A")).1.globalInterval = false ∧
     (V1.step v1SoleState (V1.Event.disconnect "A")).1.lastIndex = 0 ∧
     (V1.step v1SoleState (V1.Event.disconnect "A")).1.currentKey = "") ∧
    (V1.step v1FreshState
        (V1.Event.startPolling "A" "k" (some [("k", ["a", "b"])]))).2.broadcasts =
      [{ targets := ["A"], payload := "a" }, { targets := ["A"], payload := "b" }] := by
  constructor
  · exact v1_teardown_on_zero_connections.2.1 v1SoleState "A"
      ⟨fun _ => (by decide), fun hf => Bool.noConfusion hf⟩ rfl
  · have h := v1_teardown_on_zero_connections.2.2 v1FreshState "A" "k"
      [("k", ["a", "b"])]
      ⟨fun hf => Bool.noConfusion hf, fun _ => ⟨rfl, rfl⟩⟩ rfl rfl (by decide)
    rw [h]
    rfl

theorem alFind?_alInsert {β : Type} (m : List (String × β)) (k : String) (v : β) :
    alFind? (alInsert m k v) k = some v := by
  induction m with
  | nil => simp [alInsert, alFind?]
  | cons hd tl ih =>
      obtain ⟨k2, v2⟩ := hd
      by_cases h : k2 = k
      · simp [alInsert, h, alFind?]
      · simp [alInsert, h, alFind?, ih]

theorem alFind?_alErase {β : Type} (m : List (String × β)) (c : String) :
    alFind? (alErase m c) c = none := by
  induction m with
  | nil => rfl
  | cons hd tl ih =>
      obtain ⟨k, v⟩ := hd
      by_cases h : k = c
      · simpa [alErase, List.filter_cons, h] using ih
      · simp only [alErase, List.filter_cons] at ih ⊢
        simp [h, alFind?, ih]

theorem alErase_absent {β : Type} (m : List (String × β)) (c : String)
    (h : alFind? m c = none) : alErase m c = m := by
  induction m with
  | nil => rfl
  | cons hd tl ih =>
      obtain ⟨k, v⟩ := hd
      by_cases hk : k = c
      · simp [alFind?, hk] at h
      · simp [alFind?, hk] at h
        simp only [alErase, List.filter_cons] at ih ⊢
        simp [hk, ih h]

theorem filter_ne_not_contains (xs : List String) (c : String) :
    (xs.filter (fun x => x != c)).contains c = false := by
  induction xs with
  | nil => rfl
  | cons hd tl ih =>
      by_cases h : hd = c
      · rw [List.filter_cons]
        simp [h, ih]
      · simp [List.filter_cons, h, ih]
        exact fun hch => h hch.symm

theorem filter_ne_of_not_contains (xs : List String) (c : String)
    (h : xs.contains c = false) : xs.filter (fun x => x != c) = xs := by
  induction xs with
  | nil => rfl
  | cons hd tl ih =>
      by_cases hhd : hd = c
      · subst hhd
        simp [List.contains_cons] at h
      · have hparts : ¬c = hd ∧ c ∉ tl := by
          simpa [List.contains_cons, hhd] using h
        have htl : tl.contains c = false := by
          simpa using hparts.2
        simp [List.filter_cons, hhd, ih htl]

theorem cleanupClient_absent (st : PS.State) (c : String)
    (hc : alFind? st.clients c = none)
    (hp : alFind? st.pollingConfigs c = none)
    (hi : st.intervals.contains c = false) :
    PS.cleanupClient st c = st := by
  unfold PS.cleanupClient
  rw [alErase_absent st.clients c hc, alErase_absent st.pollingConfigs c hp,
      filter_ne_of_not_contains st.intervals c hi]

/-- C4 counterexample: from a fresh subscription whose every fetch cycle
fails, polling stops after the 5th consecutive failure (the immediate
cycle plus 4 periodic ticks) and a further tick performs no fetch — but
the whole run emits zero error events to the subscribed connection,
refuting "exactly one error notification per currently-subscribed
connection". -/
theorem v2_threshold_emits_no_error_event :
    c4Start.errorEvents ++ c4Run.errorEvents = [] ∧
    c4Run.state.intervals = [] ∧
    c4Run.state.pollingConfigs = [] ∧
    c4Run.state.clients = [] ∧
    c4Start.fetches + c4Run.fetches = 5 ∧
    (PS.periodicTick c4Run.state "A" (PS.failedResult "x")
        (PS.failedResult "x") 9).fetches = 0 :=
  ⟨rfl, rfl, rfl, rfl, rfl, rfl⟩

/-- C4 (amended): when a client's consecutive-failure counter stands at 4
and one more fetch cycle fails, the poller for that client transitions to
stopped — its interval entry is cleared and its per-client state deleted —
and a subsequent tick performs no fetch, while a new valid `startPolling`
for the client starts a fresh poller; below the threshold a failing cycle
only increments the counter. In every case the failing cycle emits no
error notification to the client: the stop is silent. -/
theorem v2_threshold_stops_silently :
    (∀ (st : PS.State) (clientId : String) (cfg : PS.PollingConfigM)
       (r2 : Api.PollResultM) (now : Nat) (msg : String),
       alFind? st.pollingConfigs clientId = some cfg →
       cfg.errorCount = 4 →
       (PS.executePolling st clientId (PS.failedResult msg) r2 now).errorEvents = [] ∧
       (PS.executePolling st clientId (PS.failedResult msg) r2 now).fetches = 1 ∧
       (PS.executePolling st clientId (PS.failedResult msg) r2 now).state.intervals.contains
         clientId = false ∧
       alFind? (PS.executePolling st clientId (PS.failedResult msg) r2 now).state.pollingConfigs
         clientId = none ∧
       alFind? (PS.executePolling st clientId (PS.failedResult msg) r2 now).state.clients
         clientId = none) ∧
    (∀ (st : PS.State) (clientId : String) (cfg : PS.PollingConfigM)
       (r2 : Api.PollResultM) (now : Nat) (msg : String),
       alFind? st.pollingConfigs clientId = some cfg →
       cfg.errorCount + 1 < 5 →
       (PS.executePolling st clientId (PS.failedResult msg) r2 now).state.pollingConfigs =
         alInsert st.pollingConfigs clientId
           { cfg with errorCount := cfg.errorCount + 1 } ∧
       (PS.executePolling st clientId (PS.failedResult msg) r2 now).state.intervals =
         st.intervals ∧
       (PS.executePolling st clientId (PS.failedResult msg) r2 now).state.clients =
         st.clients ∧
       (PS.executePolling st clientId (PS.failedResult msg) r2 now).errorEvents = []) ∧
    (∀ (st : PS.State) (clientId : String) (r1 r2 : Api.PollResultM) (now : Nat),
       st.intervals.contains clientId = false →
       PS.periodicTick st clientId r1 r2 now =
         { state := st, fetches := 0, errorEvents := [] }) ∧
    (∀ (st : PS.State) (clientId key : String) (r1 r2 : Api.PollResultM) (now : Nat),
       isValidKey key = true →
       st.intervals.contains clientId = false →
       (PS.startPolling st clientId key r1 r2 now).outcome = PS.StartOutcome.started ∧
       1 ≤ (PS.startPolling st clientId key r1 r2 now).fetches) := by
  refine ⟨?_, ?_, ?_, ?_⟩
  · intro st c cfg r2 now msg hcfg hcount
    unfold PS.executePolling
    rw [if_neg (fun h => Bool.noConfusion h)]
    unfold PS.handlePollingError
    rw [hcfg]
    dsimp only
    rw [if_pos (by omega)]
    unfold PS.stopPolling PS.cleanupClient
    dsimp only
    exact ⟨rfl, rfl, filter_ne_not_contains _ c, alFind?_alErase _ c, alFind?_alErase _ c⟩
  · intro st c cfg r2 now msg hcfg hcount
    unfold PS.executePolling
    rw [if_neg (fun h => Bool.noConfusion h)]
    unfold PS.handlePollingError
    rw [hcfg]
    dsimp only
    rw [if_neg (by omega)]
    exact ⟨rfl, rfl, rfl, rfl⟩
  · intro st c r1 r2 now hc
    unfold PS.periodicTick PS.isClientPolling
    rw [hc]
    rfl
  · intro st c key r1 r2 now hvalid hpoll
    unfold PS.startPolling
    rw [hvalid]
    rw [if_neg (fun h => Bool.noConfusion h)]
    unfold PS.isClientPolling
    rw [hpoll]
    rw [if_neg (fun h => Bool.noConfusion h)]
    dsimp only
    refine ⟨rfl, ?_⟩
    unfold PS.executePolling
    by_cases hs : r1.success = true
    · rw [if_pos hs]
      unfold PS.processMessages
      rw [show alFind? (PS.setupClient st c key now).pollingConfigs c =
            some { key := key, lastIndex := 0, isActive := true,
                   lastPollTime := now, errorCount := 0 } from
        alFind?_alInsert st.pollingConfigs c _]
      dsimp only
      by_cases hr2 : (r2.success && decide (r2.messagesProcessed > 0)) = true
      · rw [if_pos hr2]
        dsimp only [PS.getSocketById]
        omega
      · rw [if_neg hr2]
        omega
    · rw [if_neg hs]

/-- Witness for `v2_threshold_stops_silently`: a 5th consecutive failure
for client "A" silently stops its poller; a tick on the stopped state
fetches nothing; and a fresh subscription starts again. -/
theorem v2_threshold_stops_silently_witness :
    (PS.executePolling psAtFour "A" (PS.failedResult "HTTP 500: err")
        (PS.failedResult "HTTP 500: err") 7).errorEvents = [] ∧
    (PS.executePolling psAtFour "A" (PS.failedResult "HTTP 500: err")
        (PS.failedResult "HTTP 500: err") 7).state.intervals.contains "A" = false ∧
    PS.periodicTick PS.init "A" PS.okEmptyResult PS.okEmptyResult 8 =
      { state := PS.init, fetches := 0, errorEvents := [] } ∧
    (PS.startPolling PS.init "A" "k" PS.okEmptyResult PS.okEmptyResult 9).outcome =
      PS.StartOutcome.started := by
  have h1 := v2_threshold_stops_silently.1 psAtFour "A"
    { key := "k", lastIndex := 0, isActive := true, lastPollTime := 0, errorCount := 4 }
    (PS.failedResult "HTTP 500: err") 7 "HTTP 500: err" rfl rfl
  have h3 := v2_threshold_stops_silently.2.2.1 PS.init "A"
    PS.okEmptyResult PS.okEmptyResult 8 rfl
  have h4 := v2_threshold_stops_silently.2.2.2 PS.init "A" "k"
    PS.okEmptyResult PS.okEmptyResult 9 (by rfl) rfl
  exact ⟨h1.1, h1.2.2.1, h3, h4.1⟩

/-- C9 counterexample: with client "A" already polling "keyA", a
`startPolling` request for "keyB" is ignored with a warning: the state is
unchanged, the client is still on "keyA", and no fetch happens — refuting
"first unsubscribes it from the old key and then subscribes it to the new
key". -/
theorem v2_resubscribe_does_not_switch_key :
    (PS.startPolling psPollingA "A" "keyB" PS.okEmptyResult PS.okEmptyResult 5).outcome =
      PS.StartOutcome.ignoredAlreadyPolling ∧
    (PS.startPolling psPollingA "A" "keyB" PS.okEmptyResult PS.okEmptyResult 5).state =
      psPollingA ∧
    (PS.startPolling psPollingA "A" "keyB" PS.okEmptyResult PS.okEmptyResult 5).fetches = 0 ∧
    alFind? (PS.startPolling psPollingA "A" "keyB" PS.okEmptyResult
        PS.okEmptyResult 5).state.pollingConfigs "A" =
      some { key := "keyA", lastIndex := 0, isActive := true,
             lastPollTime := 0, errorCount := 0 } :=
  ⟨rfl, rfl, rfl, rfl⟩

/-- C9 (amended): a `startPolling` request from a client that is already
polling is ignored entirely: the request returns with the state
unchanged, no fetch, no implicit unsubscribe from the old key, no
subscription to the requested key, and no counter or cursor reset;
switching keys requires the client's poller to be torn down first. -/
theorem v2_resubscribe_ignored (st : PS.State) (clientId key : String)
    (r1 r2 : Api.PollResultM) (now : Nat)
    (hvalid : isValidKey key = true)
    (hpolling : PS.isClientPolling st clientId = true) :
    PS.startPolling st clientId key r1 r2 now =
      { state := st, outcome := .ignoredAlreadyPolling, fetches := 0,
        errorEvents := [] } := by
  unfold PS.startPolling
  rw [hvalid]
  rw [if_neg (fun h => Bool.noConfusion h)]
  rw [if_pos hpolling]

/-- Witness for `v2_resubscribe_ignored` at the concrete state where "A"
polls "keyA" and requests "keyB". -/
theorem v2_resubscribe_ignored_witness :
    PS.startPolling psPollingA "A" "keyB" PS.okEmptyResult PS.okEmptyResult 7 =
      { state := psPollingA, outcome := .ignoredAlreadyPolling, fetches := 0,
        errorEvents := [] } :=
  v2_resubscribe_ignored psPollingA "A" "keyB" PS.okEmptyResult PS.okEmptyResult 7
    rfl rfl

/-- C8 counterexample: the raw key "a<b" is invalid under the validator
(it contains an angle bracket), yet `handleStartPolling` sanitizes the
payload before any check, narrowing the key to "ab", which is then
accepted: polling state is created for "ab" and two fetches are performed
— refuting "rejected with no fetch ever attempted and no polling state
created" for every invalid key. -/
theorem sanitization_admits_invalid_raw_key :
    isValidKey "a<b" = false ∧
    Sec.validateStartPollingKey "a<b" = .errCharset ∧
    (PS.handleStartPolling PS.init "A" "a<b" PS.okEmptyResult PS.okEmptyResult 0).outcome =
      PS.StartOutcome.started ∧
    (PS.handleStartPolling PS.init "A" "a<b" PS.okEmptyResult PS.okEmptyResult 0).fetches = 2 ∧
    alFind? (PS.handleStartPolling PS.init "A" "a<b" PS.okEmptyResult
        PS.okEmptyResult 0).state.pollingConfigs "A" =
      some { key := "ab", lastIndex := 0, isActive := true,
             lastPollTime := 0, errorCount := 0 } :=
  ⟨rfl, rfl, rfl, rfl, rfl⟩

/-- C8 (amended): the key validators (`validateStartPollingData` and the
duplicated `isValidKey`) accept exactly the non-empty strings of at most
100 characters drawn from letters, digits, underscore and hyphen; a
subscription request whose key is still invalid after sanitization —
such as "abc def", which contains a space — is rejected with no fetch
attempted and no polling state created; but a raw key made invalid only
by angle brackets or surrounding whitespace is narrowed by sanitization
to a valid key and accepted (see the counterexample). -/
theorem key_validation_and_admission :
    (∀ key : String, Sec.validateStartPollingKey key = .ok ↔ Sec.SpecValidKey key) ∧
    (∀ key : String, isValidKey key = true ↔ Sec.SpecValidKey key) ∧
    (∀ (st : PS.State) (clientId rawKey : String) (r1 r2 : Api.PollResultM) (now : Nat),
       isValidKey (Sec.sanitizeString rawKey) = false →
       alFind? st.clients clientId = none →
       alFind? st.pollingConfigs clientId = none →
       st.intervals.contains clientId = false →
       PS.handleStartPolling st clientId rawKey r1 r2 now =
         { state := st, outcome := .errorInvalidKey, fetches := 0,
           errorEvents := ["Chave inválida fornecida"] }) ∧
    (Sec.validateStartPollingKey "abc def" = .errCharset ∧
     PS.handleStartPolling PS.init "A" "abc def" PS.okEmptyResult PS.okEmptyResult 0 =
       { state := PS.init, outcome := .errorInvalidKey, fetches := 0,
         errorEvents := ["Chave inválida fornecida"] }) := by
  refine ⟨validateStartPollingKey_ok_iff, isValidKey_iff_spec, ?_, rfl, rfl⟩
  intro st clientId rawKey r1 r2 now hinvalid hc hp hi
  unfold PS.handleStartPolling
  dsimp only
  have hvw : Sec.validateWebSocketInput none (Sec.sanitizeString rawKey) = true := rfl
  rw [if_pos hvw]
  unfold PS.startPolling
  rw [hinvalid]
  rw [if_pos (show (!false) = true from rfl)]
  rw [cleanupClient_absent st clientId hc hp hi]

/-- Witness for `key_validation_and_admission`: the key "abc def" is
invalid (space survives sanitization), so the request from a fresh client
is rejected with no fetch and no state change. -/
theorem key_validation_and_admission_witness :
    Sec.validateStartPollingKey "my-key_1" = .ok ∧
    PS.handleStartPolling PS.init "B" "abc def" PS.okEmptyResult PS.okEmptyResult 3 =
      { state := PS.init, outcome := .errorInvalidKey, fetches := 0,
        errorEvents := ["Chave inválida fornecida"] } := by
  constructor
  · exact (key_validation_and_admission.1 "my-key_1").mpr
      (by
        refine ⟨by decide, by decide, ?_⟩
        intro c hc
        fin_cases hc <;> simp)
  · exact key_validation_and_admission.2.2.1 PS.init "B" "abc def"
      PS.okEmptyResult PS.okEmptyResult 3 rfl rfl rfl rfl
